import Mathlib

/-!
Verification development for the action-log approval/delegation engine.

The definitions below are a shallow embedding of the Python source:
  - backend/users/models.py        (designation classifiers, Delegation, User methods)
  - backend/users/permissions.py   (can_approve_action_log)
  - backend/users/views.py         (DelegationViewSet.perform_create)
  - backend/action_logs/models.py  (ActionLog, legacy reject)
  - backend/action_logs/views.py   (update / approve / reject workflows)

Strings are `List Char`; timestamps are `Nat`; the delegation table is a
`List Delegation`.  Django query `.first()` calls are modelled with the
model `Meta.ordering` that the source declares.
-/

namespace ActionLog

abbrev Str := List Char

/-- ASCII lowercasing, as Python `str.lower()` acts on ASCII letters. -/
def toLowerChar (c : Char) : Char :=
  if 'A' ≤ c ∧ c ≤ 'Z' then Char.ofNat (c.toNat + 32) else c

def pyLower (s : Str) : Str := s.map toLowerChar

/-- Python `\s` / `str.strip()` whitespace set (ASCII part). -/
def pyIsSpace (c : Char) : Bool :=
  c = ' ' || c = '\t' || c = '\n' || c = '\r' || c = '\x0b' || c = '\x0c'

/-- Python `str.strip()`. -/
def pyStrip (s : Str) : Str :=
  ((s.dropWhile pyIsSpace).reverse.dropWhile pyIsSpace).reverse

def collapseWsAux : Bool → Str → Str
  | _, [] => []
  | inRun, c :: rest =>
    if pyIsSpace c then
      if inRun then collapseWsAux true rest
      else ' ' :: collapseWsAux true rest
    else c :: collapseWsAux false rest

/-- Python `re.sub(r'\s+', ' ', s)`: each maximal whitespace run becomes one space. -/
def collapseWs (s : Str) : Str := collapseWsAux false s

def listStartsWith : Str → Str → Bool
  | [], _ => true
  | _ :: _, [] => false
  | p :: ps, c :: cs => p == c && listStartsWith ps cs

def listEndsWith (p s : Str) : Bool := listStartsWith p.reverse s.reverse

/-- Python substring test `needle in hay`. -/
def containsSub (needle : Str) : Str → Bool
  | [] => listStartsWith needle []
  | c :: rest => listStartsWith needle (c :: rest) || containsSub needle rest

/-- Shared front of the patterns `ag\.?\s*c\d*/pap` and `ag\.?\s*ac\d*/pap`:
consume `ag`, an optional dot, then whitespace; return the rest.  The
consumption is deterministic: a present dot can only be matched by `\.?`
(it is not whitespace and not `a`/`c`). -/
def agPatternRest : Str → Option Str
  | 'a' :: 'g' :: rest =>
    let rest2 := match rest with
      | '.' :: r => r
      | r => r
    some (rest2.dropWhile pyIsSpace)
  | _ => none

def AG_CPAP_DOT_SPACE : Str := ("ag. c/pap").toList
def AG_CPAP_DOT : Str := ("ag.c/pap").toList
def AG_ACPAP_DOT_SPACE : Str := ("ag. ac/pap").toList
def AG_ACPAP_DOT : Str := ("ag.ac/pap").toList
def SLASH_PAP : Str := ("/pap").toList

/-- Tail `c\d*/pap` of the Ag. C/PAP pattern. -/
def cDigitsSlashPap : Str → Bool
  | [] => false
  | c :: rest => c == 'c' && (rest.dropWhile Char.isDigit) == SLASH_PAP

/-- Tail `ac\d*/pap` of the Ag. AC/PAP pattern. -/
def acDigitsSlashPap : Str → Bool
  | [] => false
  | a :: rest =>
    a == 'a' &&
      (match rest with
       | [] => false
       | c :: rest2 => c == 'c' && (rest2.dropWhile Char.isDigit) == SLASH_PAP)

/-- `re.match(r'^ag\.?\s*c\d*/pap$', s)` as a Boolean. -/
def agCpapRegexMatch (s : Str) : Bool :=
  match agPatternRest s with
  | some rest => cDigitsSlashPap rest
  | none => false

/-- `re.match(r'^ag\.?\s*ac\d*/pap$', s)` as a Boolean. -/
def agAcpapRegexMatch (s : Str) : Bool :=
  match agPatternRest s with
  | some rest => acDigitsSlashPap rest
  | none => false

/-- `designation.lower().strip()` followed by `re.sub(r'\s+', ' ', ...)`. -/
def normalizeDesignation (s : Str) : Str := collapseWs (pyStrip (pyLower s))

/-- `User.has_ag_cpap_designation` (users/models.py): lower, strip, collapse
whitespace, then the two exact forms or the numeric-suffix pattern. -/
def has_ag_cpap_designation : Option Str → Bool
  | none => false
  | some d =>
    if d = [] then false
    else
      normalizeDesignation d == AG_CPAP_DOT_SPACE ||
        normalizeDesignation d == AG_CPAP_DOT ||
        agCpapRegexMatch (normalizeDesignation d)

/-- `User.has_ag_acpap_designation` (users/models.py). -/
def has_ag_acpap_designation : Option Str → Bool
  | none => false
  | some d =>
    if d = [] then false
    else
      normalizeDesignation d == AG_ACPAP_DOT_SPACE ||
        normalizeDesignation d == AG_ACPAP_DOT ||
        agAcpapRegexMatch (normalizeDesignation d)

/-- The `is_ag_cpap` check computed inline by the approve/reject views
(action_logs/views.py): plain substring tests on `(designation or '').lower()`,
with no strip/whitespace collapse and no numeric-suffix pattern. -/
def isAgCpapView (designation : Option Str) : Bool :=
  containsSub AG_CPAP_DOT_SPACE (pyLower (designation.getD [])) ||
    containsSub AG_CPAP_DOT (pyLower (designation.getD [])) ||
    pyLower (designation.getD []) == AG_CPAP_DOT_SPACE ||
    pyLower (designation.getD []) == AG_CPAP_DOT

example : has_ag_cpap_designation (some (("Ag. C/PAP").toList)) = true := by decide
example : has_ag_cpap_designation (some (("ag c/pap").toList)) = true := by decide
example : isAgCpapView (some (("ag c/pap").toList)) = false := by decide
example : has_ag_cpap_designation (some (("senior ag. c/pap").toList)) = false := by decide
example : isAgCpapView (some (("senior ag. c/pap").toList)) = true := by decide
example : has_ag_acpap_designation (some (("Ag. AC/PAP").toList)) = true := by decide
example : has_ag_cpap_designation (some (("Ag. AC/PAP").toList)) = false := by decide
example : has_ag_cpap_designation (some (("ag.  c2/pap").toList)) = true := by decide

/-! ## Data model -/

inductive RoleName
  | economist
  | senior_economist
  | principal_economist
  | assistant_commissioner
  | commissioner
  | super_admin
deriving DecidableEq

/-- Lowercase role names (`Role.name`; the stored names are already lowercase,
so `role.name.lower()` in the views is the identity on them). -/
def roleStr : RoleName → Str
  | RoleName.economist => ("economist").toList
  | RoleName.senior_economist => ("senior_economist").toList
  | RoleName.principal_economist => ("principal_economist").toList
  | RoleName.assistant_commissioner => ("assistant_commissioner").toList
  | RoleName.commissioner => ("commissioner").toList
  | RoleName.super_admin => ("super_admin").toList

inductive Reason
  | leave
  | other
deriving DecidableEq

inductive Status
  | open_
  | in_progress
  | pending_approval
  | closed
  | approved
  | rejected
deriving DecidableEq

/-- `ActionLog.STATUS_CHOICES`: the four declared status values.  (`approved`
and `rejected` are representable because the legacy model-level
`approve`/`reject` write them, but they are not among the choices.) -/
def STATUS_CHOICES : List Status :=
  [Status.open_, Status.in_progress, Status.pending_approval, Status.closed]

inductive Stage
  | none
  | unit_head
  | assistant_commissioner
  | commissioner
  | closed
  | rejected
deriving DecidableEq

structure User where
  id : Nat
  role : RoleName
  designation : Option Str
  department_unit : Option Nat
  is_active : Bool
deriving DecidableEq

structure Delegation where
  id : Nat
  delegated_by : Nat
  delegated_to : Nat
  delegated_at : Nat
  expires_at : Option Nat
  is_active : Bool
  reason : Reason
deriving DecidableEq

structure ActionLogRec where
  status : Status
  closure_approval_stage : Stage
  closure_requested_by : Option Nat
  approved_by : Option Nat
  rejection_reason : Option Str
deriving DecidableEq

structure AssignmentRecord where
  id : Nat
  assigned_by : User
  assigned_at : Nat
deriving DecidableEq

/-! ## Query helpers (Django `.first()` under the declared Meta orderings) -/

def firstByOrder {α : Type} (before : α → α → Bool) : List α → Option α
  | [] => Option.none
  | x :: xs =>
    match firstByOrder before xs with
    | Option.none => some x
    | some y => if before y x then some y else some x

/-- `Delegation.Meta.ordering = ['-delegated_at', '-id']`. -/
def delegOrderBefore (d1 d2 : Delegation) : Bool :=
  decide (d1.delegated_at > d2.delegated_at) ||
    (d1.delegated_at == d2.delegated_at && decide (d1.id > d2.id))

def queryFirstDelegation (ds : List Delegation) : Option Delegation :=
  firstByOrder delegOrderBefore ds

/-- `assignment_history.order_by('assigned_at').first()`: the oldest record. -/
def assignOrderBefore (a b : AssignmentRecord) : Bool :=
  decide (a.assigned_at < b.assigned_at) ||
    (a.assigned_at == b.assigned_at && decide (a.id < b.id))

def oldestAssignment (h : List AssignmentRecord) : Option AssignmentRecord :=
  firstByOrder assignOrderBefore h

/-- SQL `expires_at__gt=now` (a NULL `expires_at` never satisfies it). -/
def expiresGt (d : Delegation) (now : Nat) : Bool :=
  match d.expires_at with
  | some e => decide (now < e)
  | Option.none => false

/-! ## User model methods (users/models.py) -/

/-- `user.delegations_received.filter(is_active=True).first()` as used in the
approve/reject views. -/
def activeReceivedFirst (ds : List Delegation) (uid : Nat) : Option Delegation :=
  queryFirstDelegation (ds.filter (fun d => d.delegated_to == uid && d.is_active))

/-- The views' `is_leave_delegation` flag: the first active received delegation
exists and has `reason == 'leave'` (no expiry filter in this query). -/
def isLeaveDelegationView (ds : List Delegation) (uid : Nat) : Bool :=
  match activeReceivedFirst ds uid with
  | some d => d.reason == Reason.leave
  | Option.none => false

/-- `User.has_leave_delegation_responsibilities`. -/
def has_leave_delegation_responsibilities (now : Nat) (ds : List Delegation)
    (u : User) : Bool :=
  if !has_ag_acpap_designation u.designation then false
  else
    (queryFirstDelegation (ds.filter (fun d =>
      d.delegated_to == u.id && d.is_active && d.reason == Reason.leave &&
        expiresGt d now))).isSome

/-- `user.delegations_given.filter(is_active=True, reason='leave',
expires_at__gt=now).first()` — the model layer's "is this Ag. C/PAP on leave"
query. -/
def leaveDelegationGivenFirst (now : Nat) (ds : List Delegation) (uid : Nat) :
    Option Delegation :=
  queryFirstDelegation (ds.filter (fun d =>
    d.delegated_by == uid && d.is_active && d.reason == Reason.leave &&
      expiresGt d now))

/-- `User.can_approve_action_logs`. -/
def can_approve_action_logs (now : Nat) (ds : List Delegation) (u : User) : Bool :=
  if has_ag_cpap_designation u.designation &&
      (leaveDelegationGivenFirst now ds u.id).isSome then
    false
  else if has_ag_acpap_designation u.designation then
    has_leave_delegation_responsibilities now ds u
  else if u.role == RoleName.super_admin || u.role == RoleName.commissioner then
    true
  else
    (queryFirstDelegation (ds.filter (fun d =>
      d.delegated_to == u.id && d.is_active && expiresGt d now))).isSome

/-- `can_approve_action_log` (users/permissions.py); the `action_log` argument
is never used on the reachable paths. -/
def can_approve_action_log (now : Nat) (ds : List Delegation) (u : User) : Bool :=
  if u.role == RoleName.super_admin then true
  else if u.role == RoleName.commissioner then true
  else can_approve_action_logs now ds u

/-- `User.can_manage_delegations`. -/
def can_manage_delegations (u : User) : Bool :=
  if u.role == RoleName.super_admin || u.role == RoleName.commissioner then true
  else has_ag_cpap_designation u.designation

/-- `User.can_delegate_to_user` (the target is not inspected on any branch). -/
def can_delegate_to_user (u : User) (_target : User) : Bool :=
  if u.role == RoleName.super_admin || u.role == RoleName.commissioner then true
  else has_ag_cpap_designation u.designation

/-- `Delegation.revoke_expired_delegations`: bulk-deactivate
`expires_at < now AND is_active = true`, returning the count. -/
def revoke_expired_delegations (now : Nat) (st : List Delegation) :
    Nat × List Delegation :=
  let isExpiredActive := fun (d : Delegation) =>
    (match d.expires_at with
     | some e => decide (e < now)
     | Option.none => false) && d.is_active
  ((st.filter isExpiredActive).length,
   st.map (fun d => if isExpiredActive d then { d with is_active := false } else d))

/-! ## Approve workflow (action_logs/views.py, `ActionLogViewSet.approve`) -/

def isApprovalStage (s : Stage) : Bool :=
  s == Stage.unit_head || s == Stage.assistant_commissioner || s == Stage.commissioner

/-- The views' inline `is_unit_head` heuristic. -/
def isUnitHeadView (u : User) : Bool :=
  let ud := pyLower (u.designation.getD [])
  let ur := roleStr u.role
  containsSub (("head").toList) ud || containsSub (("unit_head").toList) ur ||
    listEndsWith SLASH_PAP ud || listStartsWith (("pas").toList) ud

/-- `is_in_same_unit`: the first assignee's department unit exists and equals
the acting user's department unit. -/
def isInSameUnit (assignees : List User) (u : User) : Bool :=
  match assignees.head?.bind (fun a => a.department_unit), u.department_unit with
  | some a, some b => a == b
  | _, _ => false

/-- `can_approve_at_stage` of the hierarchical approve path. -/
def canApproveAtStage (stage : Stage) (assignees : List User) (u : User) : Bool :=
  match stage with
  | Stage.unit_head => isUnitHeadView u && isInSameUnit assignees u
  | Stage.assistant_commissioner => u.role == RoleName.assistant_commissioner
  | Stage.commissioner => u.role == RoleName.commissioner
  | _ => false

/-- The common "move to next stage in approval chain" if/elif block. -/
def advanceStage (t : ActionLogRec) : ActionLogRec :=
  match t.closure_approval_stage with
  | Stage.unit_head => { t with closure_approval_stage := Stage.assistant_commissioner }
  | Stage.assistant_commissioner => { t with closure_approval_stage := Stage.commissioner }
  | Stage.commissioner =>
      { t with closure_approval_stage := Stage.closed, status := Status.closed }
  | _ => t

/-- The "immediately approve and close" assignment pair. -/
def closeLog (t : ActionLogRec) : ActionLogRec :=
  { t with closure_approval_stage := Stage.closed, status := Status.closed }

inductive ApproveResult
  | forbidden
  | ok (log : ActionLogRec) (commentCreated : Bool)
deriving DecidableEq

/-- `_fallback_approve_workflow`. -/
def fallbackApproveWorkflow (now : Nat) (ds : List Delegation) (t : ActionLogRec)
    (u : User) (hasComment : Bool) : ApproveResult :=
  if isAgCpapView u.designation then
    if isLeaveDelegationView ds u.id then ApproveResult.ok (advanceStage t) hasComment
    else ApproveResult.ok (closeLog t) hasComment
  else if has_ag_acpap_designation u.designation &&
      has_leave_delegation_responsibilities now ds u then
    ApproveResult.ok (closeLog t) hasComment
  else
    ApproveResult.ok (advanceStage t) hasComment

/-- The `approve` action.  `hasComment` abstracts a non-empty
`request.data['comment']`; on every success path a comment record is created
exactly when it is supplied. -/
def approveView (now : Nat) (ds : List Delegation) (t : ActionLogRec)
    (history : List AssignmentRecord) (assignees : List User)
    (u : User) (hasComment : Bool) : ApproveResult :=
  if isApprovalStage t.closure_approval_stage then
    match oldestAssignment history with
    | some _ =>
      if !canApproveAtStage t.closure_approval_stage assignees u then
        ApproveResult.forbidden
      else if isAgCpapView u.designation then
        if isLeaveDelegationView ds u.id then
          ApproveResult.ok (advanceStage t) hasComment
        else ApproveResult.ok (closeLog t) hasComment
      else if has_ag_acpap_designation u.designation &&
          has_leave_delegation_responsibilities now ds u then
        ApproveResult.ok (closeLog t) hasComment
      else ApproveResult.ok (advanceStage t) hasComment
    | Option.none => fallbackApproveWorkflow now ds t u hasComment
  else fallbackApproveWorkflow now ds t u hasComment

/-! ## Reject workflow (action_logs/views.py, `ActionLogViewSet.reject`) -/

inductive RejectResult
  | forbidden
  | ok (log : ActionLogRec) (commentCreated : Bool)
  | badRequest
  | okLegacy (log : ActionLogRec)
deriving DecidableEq

/-- The `can_reject` flag shared by `reject` and `_fallback_reject_workflow`:
Ag. C/PAP (views' substring sense) and first active received delegation not a
leave one, or Ag. AC/PAP with leave responsibilities; anyone else is refused. -/
def canRejectView (now : Nat) (ds : List Delegation) (u : User) : Bool :=
  if isAgCpapView u.designation then !isLeaveDelegationView ds u.id
  else if has_ag_acpap_designation u.designation then
    has_leave_delegation_responsibilities now ds u
  else false

/-- "Rejection goes back to requester". -/
def rejectToRequester (t : ActionLogRec) : ActionLogRec :=
  { t with closure_approval_stage := Stage.none, status := Status.in_progress }

/-- Legacy `ActionLog.reject` (action_logs/models.py) as reached from the tail
of `_fallback_reject_workflow`: permission failure surfaces as a 400, success
writes `status = 'rejected'` (a value outside `STATUS_CHOICES`). -/
def legacyModelReject (now : Nat) (ds : List Delegation) (t : ActionLogRec)
    (u : User) (reason : Str) : RejectResult :=
  if !can_approve_action_log now ds u then RejectResult.badRequest
  else
    RejectResult.okLegacy
      { t with status := Status.rejected, approved_by := some u.id,
               rejection_reason := some reason }

/-- `_fallback_reject_workflow`. -/
def fallbackRejectWorkflow (now : Nat) (ds : List Delegation) (t : ActionLogRec)
    (u : User) (hasComment : Bool) (reason : Str) : RejectResult :=
  if !canRejectView now ds u then RejectResult.forbidden
  else if t.closure_approval_stage == Stage.assistant_commissioner ||
      t.closure_approval_stage == Stage.commissioner then
    let t1 :=
      if t.closure_approval_stage == Stage.assistant_commissioner then
        { t with closure_approval_stage := Stage.unit_head }
      else { t with closure_approval_stage := Stage.assistant_commissioner }
    RejectResult.ok { t1 with status := Status.in_progress } hasComment
  else if t.closure_approval_stage == Stage.unit_head then
    RejectResult.ok (rejectToRequester t) hasComment
  else legacyModelReject now ds t u reason

/-- The `reject` action. -/
def rejectView (now : Nat) (ds : List Delegation) (t : ActionLogRec)
    (history : List AssignmentRecord) (u : User) (hasComment : Bool)
    (reason : Str) : RejectResult :=
  if isApprovalStage t.closure_approval_stage then
    if !canRejectView now ds u then RejectResult.forbidden
    else
      match oldestAssignment history with
      | some orig =>
        let r := roleStr orig.assigned_by.role
        if r == ("commissioner").toList then
          RejectResult.ok (rejectToRequester t) hasComment
        else if r == ("assistant_commissioner").toList then
          RejectResult.ok (rejectToRequester t) hasComment
        else RejectResult.ok (rejectToRequester t) hasComment
      | Option.none => fallbackRejectWorkflow now ds t u hasComment reason
  else fallbackRejectWorkflow now ds t u hasComment reason

/-! ## Status-update entry into the approval workflow
(action_logs/views.py, `ActionLogViewSet.update`) -/

/-- The branch taken when the request sets `status = 'closed'` on a ticket that
is not already closed. -/
def updateRequestClosed (t : ActionLogRec) (history : List AssignmentRecord)
    (uid : Nat) : ActionLogRec :=
  match oldestAssignment history with
  | some orig =>
    let r := roleStr orig.assigned_by.role
    let stage :=
      if r == ("commissioner").toList then Stage.commissioner
      else if r == ("assistant_commissioner").toList then Stage.assistant_commissioner
      else Stage.unit_head
    { t with closure_approval_stage := stage,
             closure_requested_by := some uid,
             status := Status.pending_approval }
  | Option.none =>
    { t with closure_approval_stage := Stage.unit_head,
             closure_requested_by := some uid,
             status := Status.pending_approval }

/-- The `update` view restricted to the closure-workflow guard. -/
def updateView (t : ActionLogRec) (history : List AssignmentRecord) (uid : Nat)
    (requestedClosed : Bool) : ActionLogRec :=
  if requestedClosed && !(t.status == Status.closed) then
    updateRequestClosed t history uid
  else t

/-! ## Delegation creation (users/views.py, `DelegationViewSet.perform_create`,
with `DelegationSerializer.validate` and `Delegation.clean`/`save`) -/

inductive CreateResult
  | denied
  | validationError
  | reactivated (d : Delegation)
  | created (d : Delegation)
deriving DecidableEq

/-- `Delegation.validate_leave_delegation`, evaluated on given participants. -/
def validate_leave_delegation (delegated_by delegated_to : User) (reason : Reason)
    (expires_at : Option Nat) : Bool :=
  if reason == Reason.leave then
    has_ag_acpap_designation delegated_to.designation &&
      has_ag_cpap_designation delegated_by.designation && expires_at.isSome
  else true

def resolveUser (users : List User) (uid : Nat) : Option User :=
  users.find? (fun v => v.id == uid)

/-- `validate_leave_delegation` on a stored record (run by `clean` when an
existing delegation is re-saved, e.g. by the auto-revoke). -/
def validateStoredDelegation (users : List User) (d : Delegation) : Bool :=
  if d.reason == Reason.leave then
    (match resolveUser users d.delegated_to with
     | some v => has_ag_acpap_designation v.designation
     | Option.none => false) &&
    (match resolveUser users d.delegated_by with
     | some v => has_ag_cpap_designation v.designation
     | Option.none => false) &&
    d.expires_at.isSome
  else true

/-- `Delegation.clean` for a record without a primary key: the Ag. C/PAP
single-active check plus the leave rules. -/
def cleanNewDelegation (st : List Delegation) (delegated_by delegated_to : User)
    (is_active : Bool) (reason : Reason) (expires_at : Option Nat) : Bool :=
  (if has_ag_cpap_designation delegated_by.designation && is_active then
     (st.filter (fun d => d.delegated_by == delegated_by.id && d.is_active)).isEmpty
   else true) &&
  validate_leave_delegation delegated_by delegated_to reason expires_at

/-- `Delegation.save`'s expiry clause: deactivate when past expiry. -/
def applyExpiryOnSave (now : Nat) (is_active : Bool) (expires_at : Option Nat) :
    Bool :=
  match expires_at with
  | some e => if decide (e < now) then false else is_active
  | Option.none => is_active

/-- `DelegationSerializer.validate`: target active, a supplied expiry in the
future, and the leave rules on the target. -/
def serializerValidateDelegation (now : Nat) (target : User) (reason : Reason)
    (expires_at : Option Nat) : Bool :=
  target.is_active &&
    (match expires_at with
     | some e => decide (now < e)
     | Option.none => true) &&
    (if reason == Reason.leave then
       has_ag_acpap_designation target.designation && expires_at.isSome
     else true)

/-- `existing.save()` on a single record: replace the row with that primary key. -/
def updateDelegation (d : Delegation) (st : List Delegation) : List Delegation :=
  st.map (fun e => if e.id == d.id then d else e)

/-- `active_delegations.update(is_active=False)` for one grantor. -/
def deactivateAllBy (uid : Nat) (st : List Delegation) : List Delegation :=
  st.map (fun d =>
    if d.delegated_by == uid && d.is_active then { d with is_active := false } else d)

/-- Auto-increment primary key for a new row. -/
def nextId (st : List Delegation) : Nat :=
  (st.foldr (fun d m => max d.id m) 0) + 1

/-- `Delegation.save` on a new record against table `st2`: `clean`, the expiry
clause, then the insert with an auto-increment primary key. -/
def insertNewDelegation (now : Nat) (st2 : List Delegation) (u target : User)
    (reason : Reason) (expires_at : Option Nat) : CreateResult × List Delegation :=
  if cleanNewDelegation st2 u target true reason expires_at then
    (CreateResult.created
      { id := nextId st2, delegated_by := u.id, delegated_to := target.id,
        delegated_at := now, expires_at := expires_at,
        is_active := applyExpiryOnSave now true expires_at, reason := reason },
      st2 ++
        [{ id := nextId st2, delegated_by := u.id, delegated_to := target.id,
           delegated_at := now, expires_at := expires_at,
           is_active := applyExpiryOnSave now true expires_at,
           reason := reason }])
  else (CreateResult.validationError, st2)

/-- The non-Ag. C/PAP bulk deactivation followed by `serializer.save`. -/
def createNewDelegationStep (now : Nat) (st1 : List Delegation) (u target : User)
    (reason : Reason) (expires_at : Option Nat) : CreateResult × List Delegation :=
  insertNewDelegation now
    (if !has_ag_cpap_designation u.designation then deactivateAllBy u.id st1
     else st1)
    u target reason expires_at

/-- `DelegationViewSet.perform_create`.  Returns the outcome together with the
delegation table as left behind (validation failures after a persisted side
effect keep that side effect, as in the source, which runs outside any
transaction). -/
def perform_create (users : List User) (now : Nat) (st : List Delegation)
    (u target : User) (reason : Reason) (expires_at : Option Nat) :
    CreateResult × List Delegation :=
  if !serializerValidateDelegation now target reason expires_at then
    (CreateResult.validationError, st)
  else if !(u.role == RoleName.commissioner || u.role == RoleName.super_admin ||
      can_manage_delegations u) then
    (CreateResult.denied, st)
  else if !can_delegate_to_user u target then (CreateResult.denied, st)
  else
    match
      (if has_ag_cpap_designation u.designation then
        queryFirstDelegation (st.filter (fun d =>
          d.delegated_by == u.id && d.is_active))
      else Option.none) with
    | some ex =>
      if !validateStoredDelegation users { ex with is_active := false } then
        (CreateResult.validationError, st)
      else
        performCreateAfterRevoke now
          (updateDelegation { ex with is_active := false } st) u target reason
          expires_at
    | Option.none => performCreateAfterRevoke now st u target reason expires_at
where
  performCreateAfterRevoke (now : Nat) (st1 : List Delegation) (u target : User)
      (reason : Reason) (expires_at : Option Nat) : CreateResult × List Delegation :=
    match queryFirstDelegation (st1.filter (fun d =>
        d.delegated_by == u.id && d.delegated_to == target.id)) with
    | some ex =>
      if ex.is_active then
        if !has_ag_cpap_designation u.designation then
          (CreateResult.validationError, st1)
        else createNewDelegationStep now st1 u target reason expires_at
      else
        if validate_leave_delegation u target reason expires_at then
          (CreateResult.reactivated
            { ex with is_active := applyExpiryOnSave now true expires_at,
                      expires_at := expires_at, reason := reason },
            updateDelegation
              { ex with is_active := applyExpiryOnSave now true expires_at,
                        expires_at := expires_at, reason := reason } st1)
        else (CreateResult.validationError, st1)
    | Option.none => createNewDelegationStep now st1 u target reason expires_at

/-! ## Concrete fixtures used by counterexamples and witnesses -/

def dsgCpap : Str := ("ag. c/pap").toList
def dsgAcpap : Str := ("ag. ac/pap").toList
def dsgCpapNoDot : Str := ("ag c/pap").toList

/-- Ag. C/PAP user inside department unit 1 (role kept below commissioner so
that a department unit is storable, cf. `User.save`). -/
def uTop : User :=
  { id := 1, role := RoleName.principal_economist, designation := some dsgCpap,
    department_unit := some 1, is_active := true }

/-- Ag. C/PAP user with no department unit. -/
def uTopNoUnit : User :=
  { id := 1, role := RoleName.principal_economist, designation := some dsgCpap,
    department_unit := Option.none, is_active := true }

/-- Ag. C/PAP user whose role is commissioner. -/
def uTopComm : User :=
  { id := 1, role := RoleName.commissioner, designation := some dsgCpap,
    department_unit := Option.none, is_active := true }

/-- Ag. C/PAP-designated user whose role is plain economist. -/
def uEconCpap : User :=
  { id := 1, role := RoleName.economist, designation := some dsgCpap,
    department_unit := Option.none, is_active := true }

/-- Ag. AC/PAP user (delegate receiver). -/
def uAcp : User :=
  { id := 2, role := RoleName.economist, designation := some dsgAcpap,
    department_unit := Option.none, is_active := true }

/-- Super admin with no designation. -/
def uSA : User :=
  { id := 9, role := RoleName.super_admin, designation := Option.none,
    department_unit := Option.none, is_active := true }

/-- Ticket assignee in department unit 1. -/
def uAssignee : User :=
  { id := 5, role := RoleName.economist, designation := Option.none,
    department_unit := some 1, is_active := true }

/-- Commissioner who originally assigned a ticket. -/
def uCommAssigner : User :=
  { id := 6, role := RoleName.commissioner, designation := Option.none,
    department_unit := Option.none, is_active := true }

/-- Valid leave delegation granted by user 1 to user 2, expiring at 100. -/
def dGivenLeave : Delegation :=
  { id := 1, delegated_by := 1, delegated_to := 2, delegated_at := 0,
    expires_at := some 100, is_active := true, reason := Reason.leave }

/-- Ticket pending approval at the unit-head stage. -/
def tUH : ActionLogRec :=
  { status := Status.pending_approval, closure_approval_stage := Stage.unit_head,
    closure_requested_by := some 5, approved_by := Option.none,
    rejection_reason := Option.none }

/-- Ticket in progress with no closure workflow running. -/
def tNone : ActionLogRec :=
  { status := Status.in_progress, closure_approval_stage := Stage.none,
    closure_requested_by := Option.none, approved_by := Option.none,
    rejection_reason := Option.none }

/-- Assignment-history record: `uCommAssigner` assigned the ticket first. -/
def recByComm : AssignmentRecord :=
  { id := 1, assigned_by := uCommAssigner, assigned_at := 0 }

/-- Assignment-history record by a plain economist. -/
def recByEcon : AssignmentRecord :=
  { id := 1, assigned_by := uAssignee, assigned_at := 0 }

/-! ## Claim theorems -/

/-- Claim C1 (code_bug evidence): a top-delegate who passes the unit-head gate
and is the grantor of a currently-valid leave delegation nevertheless
short-circuits the ticket straight to `closed` — the views test
`delegations_received` instead of `delegations_given`, so the claimed
single-step advance (to `assistant_commissioner`) does not happen. -/
theorem c1_code_divergence :
    (dGivenLeave.delegated_by = uTop.id ∧ dGivenLeave.reason = Reason.leave ∧
      dGivenLeave.is_active = true ∧ expiresGt dGivenLeave 50 = true) ∧
    has_ag_cpap_designation uTop.designation = true ∧
    canApproveAtStage Stage.unit_head [uAssignee] uTop = true ∧
    approveView 50 [dGivenLeave] tUH [recByEcon] [uAssignee] uTop true =
      ApproveResult.ok (closeLog tUH) true ∧
    (closeLog tUH).closure_approval_stage = Stage.closed ∧
    (closeLog tUH).status = Status.closed ∧
    (advanceStage tUH).closure_approval_stage = Stage.assistant_commissioner := by
  decide

/-- Claim C5 (code_bug evidence): an authorized reject on a ticket outside the
approval stages reaches the legacy `ActionLog.reject`, which writes
`status = 'rejected'` — a value outside the model's own `STATUS_CHOICES`. -/
theorem c5_status_outside_choices :
    rejectView 0 [] tNone [] uTopComm false [] =
      RejectResult.okLegacy
        { tNone with status := Status.rejected, approved_by := some uTopComm.id,
                     rejection_reason := some [] } ∧
    STATUS_CHOICES.contains Status.rejected = false := by
  decide

/-- Claim C2 counterexample: a top-delegate with no leave delegation as grantor
(and none at all) invokes approve on a ticket at stage `unit_head`, but is not
in the first assignee's department unit; the code answers Forbidden, not an
immediate close. -/
theorem c2_counterexample :
    has_ag_cpap_designation uTopNoUnit.designation = true ∧
    leaveDelegationGivenFirst 0 [] uTopNoUnit.id = Option.none ∧
    tUH.closure_approval_stage = Stage.unit_head ∧
    approveView 0 [] tUH [recByEcon] [uAssignee] uTopNoUnit true =
      ApproveResult.forbidden := by
  decide

/-- Claim C3 counterexample: a super admin (neither Ag. C/PAP nor Ag. AC/PAP)
for whom the generic approval check is true is nevertheless refused by reject
at an approval stage — there is no fall-through to `can_approve_action_log`. -/
theorem c3_counterexample :
    isAgCpapView uSA.designation = false ∧
    has_ag_acpap_designation uSA.designation = false ∧
    can_approve_action_log 0 [] uSA = true ∧
    rejectView 0 [] tUH [recByEcon] uSA true [] = RejectResult.forbidden := by
  decide

/-- Claim C7 counterexample: the designation string `ag c/pap` (no dot) is a
top-delegate for the §4.1 classifier (`ag\.?\s*c\d*/pap` with the dot optional)
but not for the approve/reject views' substring test. -/
theorem c7_counterexample :
    has_ag_cpap_designation (some dsgCpapNoDot) = true ∧
    isAgCpapView (some dsgCpapNoDot) = false := by
  decide

/-- Claim C4 counterexample: for an Ag. C/PAP grantor whose role is a plain
economist, the round trip fails at its last leg — after the leave delegation
expires (and is swept), `can_approve_action_logs` for the grantor is false,
because the code falls through to role-based checks rather than granting
approval from the designation alone. -/
theorem c4_counterexample :
    has_ag_cpap_designation uEconCpap.designation = true ∧
    has_ag_acpap_designation uAcp.designation = true ∧
    dGivenLeave.delegated_by = uEconCpap.id ∧
    dGivenLeave.delegated_to = uAcp.id ∧
    dGivenLeave.reason = Reason.leave ∧ expiresGt dGivenLeave 50 = true ∧
    can_approve_action_logs 50 [dGivenLeave] uEconCpap = false ∧
    can_approve_action_logs 50 [dGivenLeave] uAcp = true ∧
    can_approve_action_logs 200
      (revoke_expired_delegations 200 [dGivenLeave]).2 uEconCpap = false ∧
    can_approve_action_logs 200
      (revoke_expired_delegations 200 [dGivenLeave]).2 uAcp = false := by
  decide

/-- Claim C9: every authorized rejection of a ticket at stage `unit_head`
(through the lineage path or, absent assignment history, the fallback path)
ends with `closure_approval_stage = none` and `status = in_progress`,
irrespective of the original assigner's role. -/
theorem c9_reject_unit_head (now : Nat) (ds : List Delegation) (t : ActionLogRec)
    (history : List AssignmentRecord) (u : User) (hc : Bool) (reason : Str)
    (t2 : ActionLogRec) (b : Bool)
    (hstage : t.closure_approval_stage = Stage.unit_head)
    (hok : rejectView now ds t history u hc reason = RejectResult.ok t2 b) :
    t2.closure_approval_stage = Stage.none ∧ t2.status = Status.in_progress := by
  unfold rejectView at hok
  rw [hstage] at hok
  have hA : isApprovalStage Stage.unit_head = true := by decide
  rw [hA, if_pos rfl] at hok
  by_cases hcr : canRejectView now ds u = true
  · rw [hcr] at hok
    simp only [Bool.not_true, Bool.false_eq_true, if_false] at hok
    split at hok
    · rw [ite_self, ite_self] at hok
      rw [RejectResult.ok.injEq] at hok
      rw [← hok.1]
      exact ⟨rfl, rfl⟩
    · unfold fallbackRejectWorkflow at hok
      rw [hstage, hcr] at hok
      have h1 : (Stage.unit_head == Stage.assistant_commissioner ||
          Stage.unit_head == Stage.commissioner) = false := by decide
      have h2 : (Stage.unit_head == Stage.unit_head) = true := by decide
      rw [h1, h2] at hok
      simp only [Bool.not_true, Bool.false_eq_true, if_false, eq_self_iff_true,
        if_true] at hok
      rw [RejectResult.ok.injEq] at hok
      rw [← hok.1]
      exact ⟨rfl, rfl⟩
  · have hcr2 : canRejectView now ds u = false := by
      cases h : canRejectView now ds u
      · rfl
      · exact absurd h hcr
    rw [hcr2] at hok
    simp only [Bool.not_false, eq_self_iff_true, if_true] at hok
    exact absurd hok (by simp)

/-- Claim C9 witness: an Ag. C/PAP rejector who is not on leave, on a
commissioner-assigned ticket at stage `unit_head`. -/
theorem c9_witness :
    (rejectToRequester tUH).closure_approval_stage = Stage.none ∧
      (rejectToRequester tUH).status = Status.in_progress :=
  c9_reject_unit_head 0 [] tUH [recByComm] uTopComm true []
    (rejectToRequester tUH) true rfl (by decide)

/-- Claim C6: on a not-yet-closed ticket whose oldest assignment record was
made by a commissioner, a request setting `status = closed` jumps the
workflow straight to the commissioner stage, stores `pending_approval`
instead of the requested status, and records the requesting actor. -/
theorem c6_commissioner_assigner_chain (t : ActionLogRec)
    (history : List AssignmentRecord) (uid : Nat) (rec : AssignmentRecord)
    (hnc : t.status ≠ Status.closed)
    (hold : oldestAssignment history = some rec)
    (hrole : rec.assigned_by.role = RoleName.commissioner) :
    (updateView t history uid true).closure_approval_stage = Stage.commissioner ∧
    (updateView t history uid true).status = Status.pending_approval ∧
    (updateView t history uid true).closure_requested_by = some uid := by
  have h1 : (t.status == Status.closed) = false := by
    cases h : t.status == Status.closed
    · rfl
    · exact absurd (by rwa [beq_iff_eq] at h) hnc
  have key : updateView t history uid true =
      { t with closure_approval_stage := Stage.commissioner,
               closure_requested_by := some uid,
               status := Status.pending_approval } := by
    unfold updateView
    rw [h1]
    simp only [Bool.not_false, Bool.and_self, eq_self_iff_true, if_true]
    unfold updateRequestClosed
    split
    · next orig heq =>
      rw [hold] at heq
      injection heq with h3
      subst h3
      rw [hrole]
      have h2 : (roleStr RoleName.commissioner == ("commissioner").toList) = true := by
        decide
      simp only [h2, eq_self_iff_true, if_true]
    · next heq =>
      rw [hold] at heq
      exact absurd heq (by simp)
  rw [key]
  exact ⟨rfl, rfl, rfl⟩

/-- Claim C6 witness: an in-progress commissioner-assigned ticket being set to
closed by user 5. -/
theorem c6_witness :
    (updateView tNone [recByComm] 5 true).closure_approval_stage =
        Stage.commissioner ∧
      (updateView tNone [recByComm] 5 true).status = Status.pending_approval ∧
      (updateView tNone [recByComm] 5 true).closure_requested_by = some 5 :=
  c6_commissioner_assigner_chain tNone [recByComm] 5 recByComm (by decide)
    (by decide) (by decide)

/-- Claim C3 amended: at an approval stage, an actor who is neither an
Ag. C/PAP (in the views' substring sense) nor an Ag. AC/PAP is always refused
by reject; the generic approval-permission check is never consulted there. -/
theorem c3_amended_reject_forbidden (now : Nat) (ds : List Delegation)
    (t : ActionLogRec) (history : List AssignmentRecord) (u : User) (hc : Bool)
    (reason : Str)
    (hstage : isApprovalStage t.closure_approval_stage = true)
    (hncpap : isAgCpapView u.designation = false)
    (hnacpap : has_ag_acpap_designation u.designation = false) :
    rejectView now ds t history u hc reason = RejectResult.forbidden := by
  have hcr : canRejectView now ds u = false := by
    unfold canRejectView
    rw [hncpap, hnacpap]
    simp
  unfold rejectView
  rw [hstage, hcr]
  simp

/-- Claim C3 amended witness: a super admin rejecting at stage `unit_head`. -/
theorem c3_amended_witness :
    rejectView 0 [] tUH [recByComm] uSA true [] = RejectResult.forbidden :=
  c3_amended_reject_forbidden 0 [] tUH [recByComm] uSA true [] (by decide)
    (by decide) (by decide)

/-- Claim C2 amended: at stage `unit_head`, an actor the approve action itself
classifies as Ag. C/PAP, whose first active received delegation is absent or
not a leave one, and who passes the unit-head authorization gate whenever the
ticket has assignment history, short-circuits the ticket to
`closure_approval_stage = closed`, `status = closed`, with a comment exactly
when one is supplied. -/
theorem c2_amended_short_circuit (now : Nat) (ds : List Delegation)
    (t : ActionLogRec) (history : List AssignmentRecord) (assignees : List User)
    (u : User) (hc : Bool)
    (hstage : t.closure_approval_stage = Stage.unit_head)
    (hcpap : isAgCpapView u.designation = true)
    (hnl : isLeaveDelegationView ds u.id = false)
    (hgate : ∀ rec, oldestAssignment history = some rec →
      canApproveAtStage Stage.unit_head assignees u = true) :
    approveView now ds t history assignees u hc =
      ApproveResult.ok (closeLog t) hc := by
  unfold approveView
  rw [hstage]
  have hA : isApprovalStage Stage.unit_head = true := by decide
  rw [hA, if_pos rfl]
  split
  · next rec heq =>
    rw [hgate rec heq, hcpap, hnl]
    simp
  · next heq =>
    unfold fallbackApproveWorkflow
    rw [hcpap, hnl]
    simp

/-- Claim C2 amended witness: an Ag. C/PAP user in the first assignee's unit,
with no delegations, approving at stage `unit_head`. -/
theorem c2_amended_witness :
    approveView 0 [] tUH [recByEcon] [uAssignee] uTop true =
      ApproveResult.ok (closeLog tUH) true :=
  c2_amended_short_circuit 0 [] tUH [recByEcon] [uAssignee] uTop true rfl
    (by decide) (by decide) (fun rec _ => by decide)

/-- Claim C7 amended: when the lowercased designation is exactly `ag. c/pap`
or `ag.c/pap`, the views' inline top-delegate test and the §4.1 classifier
agree (both true); in general they differ (see the counterexample). -/
theorem c7_amended_exact_agreement (d : Str)
    (h : pyLower d = AG_CPAP_DOT_SPACE ∨ pyLower d = AG_CPAP_DOT) :
    isAgCpapView (some d) = true ∧ has_ag_cpap_designation (some d) = true := by
  have hne : d ≠ [] := by
    intro he
    subst he
    rcases h with h | h <;> exact absurd h (by decide)
  constructor
  · unfold isAgCpapView
    simp only [Option.getD_some]
    rcases h with h | h <;> rw [h] <;> decide
  · simp only [has_ag_cpap_designation]
    rw [if_neg hne]
    unfold normalizeDesignation
    rcases h with h | h <;> rw [h] <;> decide

/-- Claim C7 amended witness: the designation `Ag. C/PAP` lowercases to
`ag. c/pap`, on which both checks agree. -/
theorem c7_amended_witness :
    isAgCpapView (some (("Ag. C/PAP").toList)) = true ∧
      has_ag_cpap_designation (some (("Ag. C/PAP").toList)) = true :=
  c7_amended_exact_agreement (("Ag. C/PAP").toList) (Or.inl (by decide))

/-! ## Disjointness of the two designation tiers -/

theorem acD_false_of_cD (r : Str) (h : cDigitsSlashPap r = true) :
    acDigitsSlashPap r = false := by
  cases r with
  | nil => exact absurd h (by decide)
  | cons c cs =>
    simp only [cDigitsSlashPap] at h
    rw [Bool.and_eq_true, beq_iff_eq] at h
    obtain ⟨hc, _⟩ := h
    subst hc
    simp only [acDigitsSlashPap]
    have hca : ('c' == 'a') = false := by decide
    rw [hca, Bool.false_and]

theorem agAcpap_false_of_agCpap (s : Str) (h : agCpapRegexMatch s = true) :
    agAcpapRegexMatch s = false := by
  cases hrest : agPatternRest s with
  | none =>
    have h2 : agCpapRegexMatch s = false := by
      unfold agCpapRegexMatch
      rw [hrest]
    rw [h2] at h
    exact absurd h (by decide)
  | some rest =>
    have h2 : agCpapRegexMatch s = cDigitsSlashPap rest := by
      unfold agCpapRegexMatch
      rw [hrest]
    have h3 : agAcpapRegexMatch s = acDigitsSlashPap rest := by
      unfold agAcpapRegexMatch
      rw [hrest]
    rw [h2] at h
    rw [h3]
    exact acD_false_of_cD rest h

/-- A designation cannot be both Ag. C/PAP and Ag. AC/PAP. -/
theorem cpap_acpap_disjoint (d : Option Str)
    (h : has_ag_cpap_designation d = true) :
    has_ag_acpap_designation d = false := by
  cases d with
  | none => exact absurd h (by decide)
  | some s =>
    by_cases hs : s = []
    · subst hs
      exact absurd h (by decide)
    · simp only [has_ag_cpap_designation] at h
      rw [if_neg hs] at h
      simp only [has_ag_acpap_designation]
      rw [if_neg hs]
      simp only [Bool.or_eq_true, beq_iff_eq] at h
      have hb1 : (normalizeDesignation s == AG_ACPAP_DOT_SPACE) = false := by
        by_cases h1 : normalizeDesignation s = AG_ACPAP_DOT_SPACE
        · rw [h1] at h
          rcases h with (h | h) | h <;> exact absurd h (by decide)
        · exact beq_eq_false_iff_ne.mpr h1
      have hb2 : (normalizeDesignation s == AG_ACPAP_DOT) = false := by
        by_cases h1 : normalizeDesignation s = AG_ACPAP_DOT
        · rw [h1] at h
          rcases h with (h | h) | h <;> exact absurd h (by decide)
        · exact beq_eq_false_iff_ne.mpr h1
      have hr : agAcpapRegexMatch (normalizeDesignation s) = false := by
        rcases h with (h | h) | h
        · rw [h]; decide
        · rw [h]; decide
        · exact agAcpap_false_of_agCpap (normalizeDesignation s) h
      rw [hb1, hb2, hr]
      rfl

/-- Claim C4 amended: the delegation round trip, with the proviso the code
forces: after expiry the grantor's `canApprove` reverts to true only because
the role-based checks then apply, so the grantor's role must be commissioner
or super_admin; the Ag. C/PAP designation alone restores nothing. -/
theorem c4_amended_round_trip (G R : User) (did T now1 now2 : Nat)
    (hG : has_ag_cpap_designation G.designation = true)
    (hGrole : G.role = RoleName.commissioner ∨ G.role = RoleName.super_admin)
    (hR : has_ag_acpap_designation R.designation = true)
    (hids : G.id ≠ R.id)
    (hvalid : now1 < T) (hexpired : T ≤ now2) :
    can_approve_action_logs now1
        [⟨did, G.id, R.id, now1, some T, true, Reason.leave⟩] G = false ∧
    can_approve_action_logs now1
        [⟨did, G.id, R.id, now1, some T, true, Reason.leave⟩] R = true ∧
    can_approve_action_logs now2
        (revoke_expired_delegations now2
          [⟨did, G.id, R.id, now1, some T, true, Reason.leave⟩]).2 G = true ∧
    can_approve_action_logs now2
        (revoke_expired_delegations now2
          [⟨did, G.id, R.id, now1, some T, true, Reason.leave⟩]).2 R = false := by
  have hGnacpap : has_ag_acpap_designation G.designation = false :=
    cpap_acpap_disjoint _ hG
  have hGR : (G.id == R.id) = false := beq_eq_false_iff_ne.mpr hids
  have hnlt : ¬ (now2 < T) := by omega
  refine ⟨?_, ?_, ?_, ?_⟩
  · simp [can_approve_action_logs, leaveDelegationGivenFirst, queryFirstDelegation,
      firstByOrder, expiresGt, hvalid, hG]
  · simp [can_approve_action_logs, leaveDelegationGivenFirst, queryFirstDelegation,
      firstByOrder, expiresGt, hvalid, hR, hGR,
      has_leave_delegation_responsibilities]
  · by_cases hlt : T < now2 <;>
      rcases hGrole with hg | hg <;>
      simp [can_approve_action_logs, leaveDelegationGivenFirst, queryFirstDelegation,
        firstByOrder, expiresGt, revoke_expired_delegations, hnlt, hG, hGnacpap,
        hlt, hg]
  · by_cases hlt : T < now2 <;>
      simp [can_approve_action_logs, leaveDelegationGivenFirst, queryFirstDelegation,
        firstByOrder, expiresGt, revoke_expired_delegations, hnlt, hR, hGR, hlt,
        has_leave_delegation_responsibilities]

/-- Claim C4 amended witness: commissioner-role Ag. C/PAP grantor, Ag. AC/PAP
grantee, delegation created at 5 expiring at 100, revisited at 200. -/
theorem c4_amended_witness :
    can_approve_action_logs 5
        [⟨1, uTopComm.id, uAcp.id, 5, some 100, true, Reason.leave⟩] uTopComm =
      false ∧
    can_approve_action_logs 5
        [⟨1, uTopComm.id, uAcp.id, 5, some 100, true, Reason.leave⟩] uAcp = true ∧
    can_approve_action_logs 200
        (revoke_expired_delegations 200
          [⟨1, uTopComm.id, uAcp.id, 5, some 100, true, Reason.leave⟩]).2 uTopComm =
      true ∧
    can_approve_action_logs 200
        (revoke_expired_delegations 200
          [⟨1, uTopComm.id, uAcp.id, 5, some 100, true, Reason.leave⟩]).2 uAcp =
      false :=
  c4_amended_round_trip uTopComm uAcp 1 100 5 200 (by decide) (Or.inl rfl)
    (by decide) (by decide) (by decide) (by decide)

/-! ## Delegation-creation frame lemmas -/

theorem mem_deactivateAllBy_inactive (uid : Nat) (st : List Delegation)
    (e : Delegation) (he : e ∈ deactivateAllBy uid st)
    (hby : e.delegated_by = uid) : e.is_active = false := by
  unfold deactivateAllBy at he
  obtain ⟨x, hx, hfx⟩ := List.mem_map.mp he
  by_cases hc : (x.delegated_by == uid && x.is_active) = true
  · rw [if_pos hc] at hfx
    rw [← hfx]
  · rw [if_neg hc] at hfx
    subst hfx
    rw [Bool.and_eq_true, beq_iff_eq] at hc
    cases ha : x.is_active
    · rfl
    · exact absurd ⟨hby, ha⟩ hc

theorem mem_updateDelegation_of_ne (d : Delegation) (st : List Delegation)
    (e : Delegation) (he : e ∈ st) (hne : e.id ≠ d.id) :
    e ∈ updateDelegation d st := by
  unfold updateDelegation
  refine List.mem_map.mpr ⟨e, he, ?_⟩
  rw [if_neg]
  rw [beq_eq_false_iff_ne.mpr hne]
  exact Bool.false_ne_true

/-- Claim C10: when a non-Ag. C/PAP grantor creates a delegation, the
brand-new-record path first deactivates every other active delegation of that
grantor, while the reactivation path leaves every other record untouched. -/
theorem c10_noncpap_create_frame (users : List User) (now : Nat)
    (st : List Delegation) (u target : User) (reason : Reason)
    (expires : Option Nat)
    (hncpap : has_ag_cpap_designation u.designation = false) :
    (∀ d st2, perform_create users now st u target reason expires =
        (CreateResult.created d, st2) →
      ∀ e ∈ st2, e.delegated_by = u.id → e.id ≠ d.id → e.is_active = false) ∧
    (∀ d st2, perform_create users now st u target reason expires =
        (CreateResult.reactivated d, st2) →
      ∀ e ∈ st, e.id ≠ d.id → e ∈ st2) := by
  constructor
  · intro d st2 heq e he hby hne
    unfold perform_create at heq
    rw [hncpap] at heq
    simp only [Bool.false_eq_true, if_false] at heq
    split_ifs at heq <;> try exact absurd heq (by simp)
    unfold perform_create.performCreateAfterRevoke at heq
    split at heq
    · next ex hex =>
      split_ifs at heq with ha hb hv
      · -- active pair, non-Ag. C/PAP grantor: validation error, never `created`
        exact absurd heq (by simp)
      · -- active pair with Ag. C/PAP grantor: impossible here
        rw [hncpap] at hb
        exact absurd (by decide) hb
      · -- inactive pair, valid reactivation: never `created`
        exact absurd heq (by simp)
      · -- inactive pair, invalid reactivation: validation error
        exact absurd heq (by simp)
    · next hex =>
      unfold createNewDelegationStep at heq
      rw [hncpap] at heq
      simp only [Bool.not_false, eq_self_iff_true, if_true] at heq
      unfold insertNewDelegation at heq
      split_ifs at heq with hclean
      · try simp only [] at heq
        rw [Prod.mk.injEq, CreateResult.created.injEq] at heq
        obtain ⟨hd, hst2⟩ := heq
        rw [← hst2] at he
        rcases List.mem_append.mp he with hmem | hmem
        · exact mem_deactivateAllBy_inactive u.id st e hmem hby
        · rw [List.mem_singleton] at hmem
          subst hmem
          rw [← hd] at hne
          exact absurd rfl hne
      · exact absurd heq (by simp)
  · intro d st2 heq e he hne
    unfold perform_create at heq
    rw [hncpap] at heq
    simp only [Bool.false_eq_true, if_false] at heq
    split_ifs at heq <;> try exact absurd heq (by simp)
    unfold perform_create.performCreateAfterRevoke at heq
    split at heq
    · next ex hex =>
      split_ifs at heq with ha hb hv
      · -- active pair, non-Ag. C/PAP grantor: validation error, never reactivated
        exact absurd heq (by simp)
      · -- active pair with Ag. C/PAP grantor: impossible here
        rw [hncpap] at hb
        exact absurd (by decide) hb
      · -- inactive pair: reactivation succeeds
        try simp only [] at heq
        rw [Prod.mk.injEq, CreateResult.reactivated.injEq] at heq
        obtain ⟨hd, hst2⟩ := heq
        rw [← hst2]
        rw [← hd] at hne
        exact mem_updateDelegation_of_ne _ st e he hne
      · -- inactive pair: validation fails
        exact absurd heq (by simp)
    · next hex =>
      unfold createNewDelegationStep at heq
      rw [hncpap] at heq
      simp only [Bool.not_false, eq_self_iff_true, if_true] at heq
      unfold insertNewDelegation at heq
      split_ifs at heq <;> exact absurd heq (by simp)

/-! ## Counting and primary-key lemmas for the single-active-delegation
invariant -/

def delegationIds (st : List Delegation) : List Nat := st.map (fun d => d.id)

/-- Number of active delegations granted by `g`. -/
def countActiveBy (g : Nat) (st : List Delegation) : Nat :=
  st.countP (fun d => d.delegated_by == g && d.is_active)

theorem firstByOrder_mem {α : Type} (before : α → α → Bool) (l : List α) (x : α)
    (h : firstByOrder before l = some x) : x ∈ l := by
  induction l with
  | nil => exact absurd h (by simp [firstByOrder])
  | cons a as ih =>
    unfold firstByOrder at h
    cases hf : firstByOrder before as with
    | none =>
      rw [hf] at h
      simp only [] at h
      injection h with h2
      subst h2
      exact List.mem_cons_self a as
    | some y =>
      rw [hf] at h
      simp only [] at h
      split_ifs at h with hb
      · injection h with h2
        subst h2
        exact List.mem_cons_of_mem a (ih hf)
      · injection h with h2
        subst h2
        exact List.mem_cons_self a as

theorem firstByOrder_none {α : Type} (before : α → α → Bool) (l : List α)
    (h : firstByOrder before l = Option.none) : l = [] := by
  cases l with
  | nil => rfl
  | cons a as =>
    unfold firstByOrder at h
    cases hf : firstByOrder before as with
    | none =>
      rw [hf] at h
      simp at h
    | some y =>
      rw [hf] at h
      simp only [] at h
      split_ifs at h

theorem firstByOrder_singleton {α : Type} (before : α → α → Bool) (l : List α)
    (x : α) (h : firstByOrder before l = some x) (hlen : l.length ≤ 1) :
    l = [x] := by
  cases l with
  | nil => exact absurd h (by simp [firstByOrder])
  | cons a as =>
    cases as with
    | nil =>
      simp [firstByOrder] at h
      rw [h]
    | cons b bs => simp at hlen

theorem countP_map_le_of {α : Type} (f : α → α) (q r : α → Bool)
    (h : ∀ x, q (f x) = true → r x = true) (l : List α) :
    List.countP q (l.map f) ≤ List.countP r l := by
  induction l with
  | nil => simp
  | cons a as ih =>
    rw [List.map_cons, List.countP_cons, List.countP_cons]
    have h1 : (if q (f a) = true then 1 else 0) ≤
        (if r a = true then 1 else 0) := by
      by_cases hq : q (f a) = true
      · rw [if_pos hq, if_pos (h a hq)]
      · rw [if_neg hq]
        split_ifs <;> omega
    omega

theorem countP_or_le {α : Type} (p q : α → Bool) (l : List α) :
    List.countP (fun x => p x || q x) l ≤
      List.countP p l + List.countP q l := by
  induction l with
  | nil => simp
  | cons a as ih =>
    rw [List.countP_cons, List.countP_cons, List.countP_cons]
    have h1 : (if (p a || q a) = true then 1 else 0) ≤
        (if p a = true then 1 else 0) + (if q a = true then 1 else 0) := by
      cases hp : p a <;> cases hq : q a <;> simp
    omega

theorem countP_id_le_one (j : Nat) (st : List Delegation)
    (hnd : (delegationIds st).Nodup) :
    List.countP (fun x => x.id == j) st ≤ 1 := by
  induction st with
  | nil => simp
  | cons a as ih =>
    unfold delegationIds at hnd
    rw [List.map_cons, List.nodup_cons] at hnd
    obtain ⟨hnotin, hnd2⟩ := hnd
    rw [List.countP_cons]
    by_cases ha : (a.id == j) = true
    · rw [if_pos ha]
      have hz : List.countP (fun x => x.id == j) as = 0 := by
        rw [List.countP_eq_zero]
        intro x hx hpx
        rw [beq_iff_eq] at hpx
        rw [beq_iff_eq] at ha
        exact hnotin (List.mem_map.mpr ⟨x, hx, by rw [hpx, ha]⟩)
      omega
    · rw [if_neg ha]
      have := ih hnd2
      omega

theorem ids_updateDelegation (d : Delegation) (st : List Delegation) :
    delegationIds (updateDelegation d st) = delegationIds st := by
  unfold delegationIds updateDelegation
  rw [List.map_map]
  apply List.map_congr_left
  intro x _
  simp only [Function.comp_apply]
  by_cases hc : (x.id == d.id) = true
  · rw [if_pos hc]
    exact (beq_iff_eq.mp hc).symm
  · rw [if_neg hc]

theorem ids_deactivateAllBy (uid : Nat) (st : List Delegation) :
    delegationIds (deactivateAllBy uid st) = delegationIds st := by
  unfold delegationIds deactivateAllBy
  rw [List.map_map]
  apply List.map_congr_left
  intro x _
  simp only [Function.comp_apply]
  by_cases hc : (x.delegated_by == uid && x.is_active) = true
  · rw [if_pos hc]
  · rw [if_neg hc]

theorem id_le_maxIdFold (st : List Delegation) (d : Delegation) (hd : d ∈ st) :
    d.id ≤ st.foldr (fun e m => max e.id m) 0 := by
  induction st with
  | nil => exact absurd hd (by simp)
  | cons a as ih =>
    rw [List.foldr_cons]
    rcases List.mem_cons.mp hd with h | h
    · rw [h]
      exact Nat.le_max_left _ _
    · exact le_trans (ih h) (Nat.le_max_right _ _)

theorem nodup_ids_append_new (st : List Delegation) (d : Delegation)
    (hnd : (delegationIds st).Nodup) (hgt : ∀ e ∈ st, e.id < d.id) :
    (delegationIds (st ++ [d])).Nodup := by
  unfold delegationIds at hnd ⊢
  rw [List.map_append]
  refine List.Nodup.append hnd (by simp) ?_
  intro x hx hx2
  simp only [List.map_cons, List.map_nil, List.mem_singleton] at hx2
  obtain ⟨e, he, hei⟩ := List.mem_map.mp hx
  have := hgt e he
  omega

theorem count_deactivateAllBy_le (g uid : Nat) (st : List Delegation) :
    countActiveBy g (deactivateAllBy uid st) ≤ countActiveBy g st := by
  unfold countActiveBy deactivateAllBy
  apply countP_map_le_of
  intro x hx
  by_cases hc : (x.delegated_by == uid && x.is_active) = true
  · rw [if_pos hc] at hx
    simp at hx
  · rw [if_neg hc] at hx
    exact hx

theorem count_updateDelegation_le_of_notp (g : Nat) (d : Delegation)
    (st : List Delegation)
    (hd : (d.delegated_by == g && d.is_active) = false) :
    countActiveBy g (updateDelegation d st) ≤ countActiveBy g st := by
  unfold countActiveBy updateDelegation
  apply countP_map_le_of
  intro x hx
  by_cases hc : (x.id == d.id) = true
  · rw [if_pos hc] at hx
    rw [hd] at hx
    exact absurd hx (by simp)
  · rw [if_neg hc] at hx
    exact hx

theorem count_zero_after_deact (g : Nat) (st : List Delegation) (ex : Delegation)
    (hf : st.filter (fun d => d.delegated_by == g && d.is_active) = [ex]) :
    countActiveBy g
      (updateDelegation { ex with is_active := false } st) = 0 := by
  unfold countActiveBy updateDelegation
  rw [List.countP_eq_zero]
  intro e he hpe
  obtain ⟨x, hx, hfx⟩ := List.mem_map.mp he
  by_cases hc : (x.id == Delegation.id { ex with is_active := false }) = true
  · rw [if_pos hc] at hfx
    rw [← hfx] at hpe
    simp at hpe
  · rw [if_neg hc] at hfx
    rw [← hfx] at hpe
    have hxf : x ∈ st.filter (fun d => d.delegated_by == g && d.is_active) :=
      List.mem_filter.mpr ⟨hx, hpe⟩
    rw [hf, List.mem_singleton] at hxf
    subst hxf
    exact absurd (by simp) hc

/-- The per-grantor invariant: primary keys are unique and the grantor has at
most one active delegation. -/
def DelegInv (g : Nat) (st : List Delegation) : Prop :=
  (delegationIds st).Nodup ∧ countActiveBy g st ≤ 1

theorem count_updateDelegation_le_one (g : Nat) (d : Delegation)
    (st : List Delegation) (hnd : (delegationIds st).Nodup)
    (h0 : countActiveBy g st = 0) :
    countActiveBy g (updateDelegation d st) ≤ 1 := by
  have harg : ∀ x : Delegation,
      ((if x.id == d.id then d else x).delegated_by == g &&
        (if x.id == d.id then d else x).is_active) = true →
      ((x.id == d.id) || (x.delegated_by == g && x.is_active)) = true := by
    intro x hx
    by_cases hc : (x.id == d.id) = true
    · rw [hc, Bool.true_or]
    · rw [if_neg hc] at hx
      rw [hx, Bool.or_true]
  have hstep := countP_map_le_of (fun e => if e.id == d.id then d else e)
    (fun e => e.delegated_by == g && e.is_active)
    (fun x => (x.id == d.id) || (x.delegated_by == g && x.is_active)) harg st
  have hsplit := countP_or_le (fun x => x.id == d.id)
    (fun x => x.delegated_by == g && x.is_active) st
  have hident := countP_id_le_one d.id st hnd
  unfold countActiveBy updateDelegation
  unfold countActiveBy at h0
  omega

theorem updateDelegation_inv_zero (g : Nat) (d : Delegation)
    (st : List Delegation) (hnd : (delegationIds st).Nodup)
    (h0 : countActiveBy g st = 0) :
    DelegInv g (updateDelegation d st) := by
  constructor
  · rw [ids_updateDelegation]
    exact hnd
  · exact count_updateDelegation_le_one g d st hnd h0

theorem updateDelegation_inv_of_by (g : Nat) (d : Delegation)
    (st : List Delegation) (hnd : (delegationIds st).Nodup)
    (hle : countActiveBy g st ≤ 1) (hby : d.delegated_by ≠ g) :
    DelegInv g (updateDelegation d st) := by
  constructor
  · rw [ids_updateDelegation]
    exact hnd
  · refine le_trans (count_updateDelegation_le_of_notp g d st ?_) hle
    rw [beq_eq_false_iff_ne.mpr hby, Bool.false_and]

theorem insertNewDelegation_inv (now : Nat) (st2 : List Delegation)
    (u target : User) (reason : Reason) (expires : Option Nat) (g : Nat)
    (hnd : (delegationIds st2).Nodup)
    (hzero : u.id = g → countActiveBy g st2 = 0)
    (hle : countActiveBy g st2 ≤ 1) :
    DelegInv g (insertNewDelegation now st2 u target reason expires).2 := by
  unfold insertNewDelegation
  split_ifs with hclean
  · constructor
    · apply nodup_ids_append_new st2 _ hnd
      intro e he
      have h1 := id_le_maxIdFold st2 e he
      show e.id < nextId st2
      unfold nextId
      omega
    · unfold countActiveBy at hzero hle ⊢
      rw [List.countP_append]
      have hone : List.countP (fun d => d.delegated_by == g && d.is_active)
          [({ id := nextId st2, delegated_by := u.id, delegated_to := target.id,
              delegated_at := now, expires_at := expires,
              is_active := applyExpiryOnSave now true expires,
              reason := reason } : Delegation)] ≤ 1 :=
        le_trans (List.countP_le_length _) (by simp)
      by_cases hug : u.id = g
      · have h0 := hzero hug
        omega
      · have hz2 : List.countP (fun d => d.delegated_by == g && d.is_active)
            [({ id := nextId st2, delegated_by := u.id,
                delegated_to := target.id, delegated_at := now,
                expires_at := expires,
                is_active := applyExpiryOnSave now true expires,
                reason := reason } : Delegation)] = 0 := by
          rw [List.countP_eq_zero]
          intro x hx hpx
          rw [List.mem_singleton] at hx
          subst hx
          rw [Bool.and_eq_true, beq_iff_eq] at hpx
          exact hug hpx.1
        omega
  · exact ⟨hnd, hle⟩

theorem createNewDelegationStep_inv (now : Nat) (st1 : List Delegation)
    (u target : User) (reason : Reason) (expires : Option Nat) (g : Nat)
    (hnd : (delegationIds st1).Nodup)
    (hzero : u.id = g → countActiveBy g st1 = 0)
    (hle : countActiveBy g st1 ≤ 1) :
    DelegInv g (createNewDelegationStep now st1 u target reason expires).2 := by
  unfold createNewDelegationStep
  split_ifs with hcp
  · apply insertNewDelegation_inv
    · rw [ids_deactivateAllBy]
      exact hnd
    · intro hug
      have h0 := hzero hug
      have h2 := count_deactivateAllBy_le g u.id st1
      omega
    · exact le_trans (count_deactivateAllBy_le g u.id st1) hle
  · exact insertNewDelegation_inv now st1 u target reason expires g hnd hzero hle

theorem performCreateAfterRevoke_inv (now : Nat) (st1 : List Delegation)
    (u target : User) (reason : Reason) (expires : Option Nat) (g : Nat)
    (hnd : (delegationIds st1).Nodup)
    (hzero : u.id = g → countActiveBy g st1 = 0)
    (hle : countActiveBy g st1 ≤ 1) :
    DelegInv g
      (perform_create.performCreateAfterRevoke now st1 u target reason
        expires).2 := by
  unfold perform_create.performCreateAfterRevoke
  split
  · next ex hex =>
    have hexmem : ex ∈ st1.filter (fun d =>
        d.delegated_by == u.id && d.delegated_to == target.id) :=
      firstByOrder_mem _ _ _ hex
    have hexby : ex.delegated_by = u.id := by
      have h2 := (List.mem_filter.mp hexmem).2
      rw [Bool.and_eq_true, beq_iff_eq] at h2
      exact h2.1
    split_ifs with ha hb hv
    · exact ⟨hnd, hle⟩
    · exact createNewDelegationStep_inv now st1 u target reason expires g hnd
        hzero hle
    · -- reactivation: the pair record is rewritten in place
      by_cases hug : u.id = g
      · exact updateDelegation_inv_zero g _ st1 hnd (hzero hug)
      · refine updateDelegation_inv_of_by g _ st1 hnd hle ?_
        show ex.delegated_by ≠ g
        rw [hexby]
        exact hug
    · exact ⟨hnd, hle⟩
  · next hex =>
    exact createNewDelegationStep_inv now st1 u target reason expires g hnd
      hzero hle

theorem perform_create_inv (users : List User) (now : Nat)
    (st : List Delegation) (u target : User) (reason : Reason)
    (expires : Option Nat) (g : Nat)
    (hcp : u.id = g → has_ag_cpap_designation u.designation = true)
    (hinv : DelegInv g st) :
    DelegInv g (perform_create users now st u target reason expires).2 := by
  obtain ⟨hnd, hle⟩ := hinv
  unfold perform_create
  split_ifs with h1 h2 h3 hcpap
  · exact ⟨hnd, hle⟩
  · exact ⟨hnd, hle⟩
  · exact ⟨hnd, hle⟩
  · cases hex : queryFirstDelegation (st.filter (fun d =>
        d.delegated_by == u.id && d.is_active)) with
    | none =>
      apply performCreateAfterRevoke_inv now st u target reason expires g hnd
        ?_ hle
      intro hug
      have hnil := firstByOrder_none _ _ hex
      subst hug
      unfold countActiveBy
      rw [List.countP_eq_length_filter, hnil]
      rfl
    | some ex =>
      simp only []
      split_ifs with hvs
      · exact ⟨hnd, hle⟩
      · apply performCreateAfterRevoke_inv now _ u target reason expires g
          ?_ ?_ ?_
        · rw [ids_updateDelegation]
          exact hnd
        · intro hug
          subst hug
          have hfilter : st.filter (fun d =>
              d.delegated_by == u.id && d.is_active) = [ex] := by
            apply firstByOrder_singleton _ _ _ hex
            unfold countActiveBy at hle
            rw [List.countP_eq_length_filter] at hle
            exact hle
          exact count_zero_after_deact u.id st ex hfilter
        · refine le_trans (count_updateDelegation_le_of_notp g _ st ?_) hle
          rw [show Delegation.is_active { ex with is_active := false } = false
            from rfl]
          rw [Bool.and_false]
  · apply performCreateAfterRevoke_inv now st u target reason expires g hnd
      ?_ hle
    intro hug
    exact absurd (hcp hug) hcpap

/-! ## Sequences of delegation-create calls -/

structure CreateRequest where
  creator : User
  target : User
  reason : Reason
  expires_at : Option Nat
  now : Nat
deriving DecidableEq

/-- Apply one create call and keep the resulting delegation table. -/
def applyCreate (users : List User) (st : List Delegation) (r : CreateRequest) :
    List Delegation :=
  (perform_create users r.now st r.creator r.target r.reason r.expires_at).2

theorem foldl_applyCreate_inv (users : List User) (g : Nat)
    (reqs : List CreateRequest)
    (hcr : ∀ r ∈ reqs, r.creator.id = g →
      has_ag_cpap_designation r.creator.designation = true)
    (st : List Delegation) (hinv : DelegInv g st) :
    DelegInv g (reqs.foldl (applyCreate users) st) := by
  induction reqs generalizing st with
  | nil => exact hinv
  | cons r rs ih =>
    rw [List.foldl_cons]
    refine ih (fun x hx => hcr x (List.mem_cons_of_mem r hx)) _ ?_
    exact perform_create_inv users r.now st r.creator r.target r.reason
      r.expires_at g (hcr r (List.mem_cons_self r rs)) hinv

/-- Claim C8: for a grantor holding the Ag. C/PAP designation, any sequence of
delegation create calls preserves "at most one active delegation by that
grantor" — each create by the grantor deactivates the prior active one before
creating or reactivating.  Tables start with distinct primary keys and at most
one active delegation by the grantor. -/
theorem c8_single_active_delegation (users : List User) (g : User)
    (hg : has_ag_cpap_designation g.designation = true)
    (reqs : List CreateRequest)
    (hcreators : ∀ r ∈ reqs, r.creator.id = g.id → r.creator = g)
    (st : List Delegation)
    (hnd : (delegationIds st).Nodup)
    (hcount : countActiveBy g.id st ≤ 1) :
    countActiveBy g.id (reqs.foldl (applyCreate users) st) ≤ 1 :=
  (foldl_applyCreate_inv users g.id reqs
    (fun r hr hid => by rw [hcreators r hr hid]; exact hg) st ⟨hnd, hcount⟩).2

/-- Claim C8 witness: the Ag. C/PAP user 1 creates a delegation to user 2 on an
empty table. -/
theorem c8_witness :
    countActiveBy uTopComm.id
      ([⟨uTopComm, uAcp, Reason.other, Option.none, 0⟩].foldl
        (applyCreate []) []) ≤ 1 :=
  c8_single_active_delegation [] uTopComm (by decide)
    [⟨uTopComm, uAcp, Reason.other, Option.none, 0⟩] (by decide) [] (by decide)
    (by decide)

/-- Claim C10 fixtures. -/
def dOld10 : Delegation :=
  { id := 3, delegated_by := 6, delegated_to := 7, delegated_at := 0,
    expires_at := Option.none, is_active := true, reason := Reason.other }

def dOld10Deact : Delegation := { dOld10 with is_active := false }

def dNew10 : Delegation :=
  { id := 4, delegated_by := 6, delegated_to := 5, delegated_at := 10,
    expires_at := Option.none, is_active := true, reason := Reason.other }

/-- Claim C10 witness: a commissioner (not Ag. C/PAP) creates a brand-new
delegation to `uAssignee` while holding an active delegation to someone else;
that older delegation is deactivated as a side effect. -/
theorem c10_witness : dOld10Deact.is_active = false :=
  (c10_noncpap_create_frame [] 10 [dOld10] uCommAssigner uAssignee Reason.other
      Option.none (by decide)).1 dNew10 [dOld10Deact, dNew10] (by decide)
    dOld10Deact (by decide) (by decide) (by decide)

end ActionLog
